import Mathlib

/-!
Verification development for the asynchronous job pipeline of the
my-design-platform repository: the Redis-backed FIFO queue
(src/mcp_platform/jobs/queue.py), the worker loop and job execution
(src/mcp_platform/jobs/worker.py), and the shared notes state owned by
the server module (src/mcp_platform/server.py).

The external Redis store is modelled as explicit data: lists keyed by
name (for the queue) and hashes keyed by name (for the durable mirror).
The JSON wire format is modelled at the level of the JSON value tree:
json.dumps followed by json.loads is the identity on values the json
library can represent, so a queued record is a JsonVal and the only
decoding step the repository itself contributes is the dataclass
construction Job(**json.loads(data)).
-/

/-- JSON value tree: the values representable in the serialization format
used by the queue (json.dumps / json.loads). Numbers are modelled as
integers; no claim depends on numeric payloads. -/
inductive JsonVal where
  | null
  | bool (b : Bool)
  | num (n : Int)
  | str (s : String)
  | arr (xs : List JsonVal)
  | obj (fields : List (String × JsonVal))

/-- Lookup in a string-keyed mapping, first match wins: the behaviour of
d[k] on a Python dict in insertion-order representation without duplicate
keys. -/
def lookupKey {α : Type} : List (String × α) → String → Option α
  | [], _ => none
  | (k', v) :: rest, k => if k' = k then some v else lookupKey rest k

/-- Update in a string-keyed mapping: d[k] = v overwrites in place if the
key exists, else appends, matching Python dict insertion-order semantics. -/
def setKey {α : Type} : List (String × α) → String → α → List (String × α)
  | [], k, v => [(k, v)]
  | (k', v') :: rest, k, v =>
    if k' = k then (k, v) :: rest else (k', v') :: setKey rest k v

/-- Python exceptions that the modelled code paths can raise. -/
inductive PyErr where
  | keyError (key : String)
  | attributeError (attr : String)
  | typeError
deriving DecidableEq, Repr

/-- The Job dataclass of jobs/queue.py: a type tag and a string-keyed data
mapping (type : str, data : dict of str to Any, values JSON-representable). -/
structure Job where
  type : String
  data : List (String × JsonVal)

/-- Encoding used by enqueue: json.dumps(asdict(job)). asdict lists the
dataclass fields in declaration order, type then data, so the wire record
is the JSON object with exactly those two fields. -/
def encodeJob (j : Job) : JsonVal :=
  .obj [("type", .str j.type), ("data", .obj j.data)]

/-- Decoding used by dequeue: Job(**json.loads(data)). The dataclass
constructor succeeds exactly when the loaded value is a mapping whose key
set is exactly the two field names; a missing or extra keyword argument
raises TypeError, as does unpacking a non-mapping. The field annotations
of Job (type : str, data : dict) delimit the modelled domain: records
whose fields are not of the annotated shapes are treated as undecodable. -/
def decodeJob (v : JsonVal) : Except PyErr Job :=
  match v with
  | .obj fields =>
    match lookupKey fields "type", lookupKey fields "data" with
    | some (.str t), some (.obj d) =>
      if fields.all (fun kv => kv.1 = "type" || kv.1 = "data") then
        .ok ⟨t, d⟩
      else
        .error .typeError
    | _, _ => .error .typeError
  | _ => .error .typeError

/-- The Redis list store reachable through the queue connection: a mapping
from list name to the sequence of records it holds. An absent key and an
empty list are observationally equal in Redis and are identified here by
always reading through getD. -/
def RedisDB : Type := List (String × List JsonVal)

/-- Records currently held by the named Redis list. -/
def listOf (db : RedisDB) (key : String) : List JsonVal :=
  (lookupKey db key).getD []

/-- Redis RPUSH: append one record to the tail of the named list and
return the new length of the list together with the updated store. -/
def rpush (db : RedisDB) (key : String) (v : JsonVal) : Nat × RedisDB :=
  let new := listOf db key ++ [v]
  (new.length, setKey db key new)

/-- Redis LPOP: remove and return the head of the named list if present,
else return nothing and leave the store unchanged. -/
def lpop (db : RedisDB) (key : String) : Option JsonVal × RedisDB :=
  match listOf db key with
  | [] => (none, db)
  | v :: rest => (some v, setKey db key rest)

/-- The RedisJobQueue of jobs/queue.py. The constructor takes the queue
name with default "jobs"; the connection itself is passed to each
operation explicitly as the store it acts on. -/
structure RedisJobQueue where
  qname : String := "jobs"
deriving DecidableEq, Repr

/-- RedisJobQueue.enqueue: serialize the job and RPUSH it onto the named
list, returning the new queue length. -/
def RedisJobQueue.enqueue (q : RedisJobQueue) (db : RedisDB) (job : Job) :
    Nat × RedisDB :=
  rpush db q.qname (encodeJob job)

/-- RedisJobQueue.dequeue: LPOP the named list; on a missing record return
none; otherwise decode the popped record, an operation that can raise.
The pop happens before the decode, so a record that fails to decode has
already been consumed from the store. -/
def RedisJobQueue.dequeue (q : RedisJobQueue) (db : RedisDB) :
    Except PyErr (Option Job) × RedisDB :=
  match lpop db q.qname with
  | (none, db') => (.ok none, db')
  | (some rec, db') =>
    match decodeJob rec with
    | .ok j => (.ok (some j), db')
    | .error e => (.error e, db')

/-- A Python module or object attribute slot: the attribute may be absent
(reading it raises AttributeError), or present holding an optional value.
server.py never defines a module attribute redis_conn, so its slot starts
unset; the worker reads it with a plain attribute access. -/
inductive Attr (α : Type) where
  | unset
  | val (a : Option α)
deriving DecidableEq

/-- The durable mirror reachable through a configured Redis connection:
its hashes, keyed by hash name, each a mapping from field to value. The
worker writes note mutations into the hash named "notes" with HSET. -/
structure Mirror where
  hashes : List (String × List (String × String))
deriving DecidableEq

/-- Redis HSET: set one field of the named hash, creating the hash if it
does not exist yet. -/
def Mirror.hset (m : Mirror) (h f v : String) : Mirror :=
  ⟨setKey m.hashes h (setKey ((lookupKey m.hashes h).getD []) f v)⟩

/-- Field of a hash of the mirror, read back with HGET semantics. -/
def Mirror.field (m : Mirror) (h f : String) : Option String :=
  lookupKey ((lookupKey m.hashes h).getD []) f

/-- Observable effects of one job execution, in order: the in-memory note
assignment, the mirror HSET, and the change notification sent through the
request context session. -/
inductive Event where
  | setNote (name content : String)
  | hset (hash field value : String)
  | notify
deriving DecidableEq

/-- The state of the server module as seen by the worker: the in-memory
notes mapping (annotated dict of str to str at server.py line 15), the
redis_conn attribute slot (never defined by server.py itself; only
external code can create it), and the request_context attribute slot read
through getattr with a None default. A present request context object is
modelled by val (some Unit.unit): any such object is truthy, and its only
use is to send one resource-list-changed notification. -/
structure ServerState where
  notes : List (String × String)
  redis_conn : Attr Mirror
  request_context : Attr Unit
deriving DecidableEq

/-- The server module in its state at import time: notes = empty dict,
and neither a redis_conn nor a request_context attribute defined. -/
def initialServerState : ServerState :=
  { notes := [], redis_conn := .unset, request_context := .unset }

/-- Truthiness of getattr(server, "request_context", None): the default
None is falsy, a present None is falsy, a present context object truthy. -/
def Attr.truthy : Attr Unit → Bool
  | .val (some _) => true
  | _ => false

/-- Final notification step of process_job: if the request_context
attribute is present and truthy, send one resource-list-changed
notification through its session; otherwise do nothing. getattr with a
default never raises. -/
def notifyStep (s : ServerState) (evs : List Event) :
    Except PyErr Unit × ServerState × List Event :=
  if s.request_context.truthy then
    (.ok (), s, evs ++ [Event.notify])
  else
    (.ok (), s, evs)

/-- Coerce a data value to a note name or content string. The notes store
is annotated dict of str to str and every job the repository constructs
carries string name and content; a non-string value is outside the
modelled domain and mapped to a TypeError. -/
def asStr : JsonVal → Option String
  | .str s => some s
  | _ => none

/-- The process_job function of jobs/worker.py, as a state transformer
returning the outcome (ok, or the exception that propagates), the updated
server state, and the trace of observable effects in execution order.
Line by line: on type "add-note" it reads data["name"] and data["content"]
(KeyError on a missing key, before any mutation), assigns
notes[note_name] = content, then reads server.redis_conn (AttributeError
if the module attribute was never defined) and, when it is not None,
HSETs hash "notes"; finally it sends a notification if
getattr(server, "request_context", None) is truthy. Any other job type
falls through the single if statement: a no-op. -/
def processJob (job : Job) (s : ServerState) :
    Except PyErr Unit × ServerState × List Event :=
  if job.type = "add-note" then
    match lookupKey job.data "name" with
    | none => (.error (.keyError "name"), s, [])
    | some nv =>
      match lookupKey job.data "content" with
      | none => (.error (.keyError "content"), s, [])
      | some cv =>
        match asStr nv, asStr cv with
        | some note_name, some content =>
          let s1 := { s with notes := setKey s.notes note_name content }
          let evs := [Event.setNote note_name content]
          match s1.redis_conn with
          | .unset => (.error (.attributeError "redis_conn"), s1, evs)
          | .val none => notifyStep s1 evs
          | .val (some m) =>
            let s2 := { s1 with
              redis_conn := .val (some (m.hset "notes" note_name content)) }
            notifyStep s2 (evs ++ [Event.hset "notes" note_name content])
        | _, _ => (.error .typeError, s, [])
  else
    (.ok (), s, [])

/-- The queue instance the worker constructs: RedisJobQueue(redis) with
the name argument left to its default. -/
def workerQueue : RedisJobQueue := {}

/-- Outcome of one iteration of the worker loop body: a job was dequeued
and executed, or the queue was empty and the loop slept for the poll
interval, or an exception propagated out of the loop body. The while loop
of worker has no exception handler, so a crashed outcome terminates the
worker coroutine. -/
inductive StepResult where
  | processed (j : Job)
  | slept
  | crashed (e : PyErr)

/-- Combined world the worker acts on: the Redis store holding the queue
lists and the server module state. -/
structure WorldState where
  db : RedisDB
  srv : ServerState

/-- One iteration of the worker loop of jobs/worker.py: dequeue from the
queue named "jobs"; a dataclass instance is always truthy, so if a job
came back it is executed with process_job, else the loop sleeps. An
exception raised by dequeue or by process_job propagates: the iteration
reports crashed and the loop terminates. -/
def workerStep (w : WorldState) : StepResult × WorldState × List Event :=
  match workerQueue.dequeue w.db with
  | (.error e, db') => (.crashed e, ⟨db', w.srv⟩, [])
  | (.ok none, db') => (.slept, ⟨db', w.srv⟩, [])
  | (.ok (some j), db') =>
    match processJob j w.srv with
    | (.ok _, srv', evs) => (.processed j, ⟨db', srv'⟩, evs)
    | (.error e, srv', evs) => (.crashed e, ⟨db', srv'⟩, evs)

/-- Run the worker loop for a bounded number of iterations, collecting the
outcome of each. The loop itself runs until cancelled; a crash, however,
ends the run early because the exception terminates the coroutine. -/
def workerRun : Nat → WorldState → List StepResult × WorldState
  | 0, w => ([], w)
  | k + 1, w =>
    match workerStep w with
    | (.crashed e, w', _) => ([.crashed e], w')
    | (r, w', _) =>
      let (rs, w'') := workerRun k w'
      (r :: rs, w'')

theorem lookupKey_setKey_self {α : Type} (d : List (String × α)) (k : String) (v : α) :
    lookupKey (setKey d k v) k = some v := by
  induction d with
  | nil => simp [setKey, lookupKey]
  | cons hd tl ih =>
    obtain ⟨k', v'⟩ := hd
    by_cases h : k' = k
    · simp [setKey, lookupKey, h]
    · simp [setKey, lookupKey, h, ih]

theorem lookupKey_setKey_other {α : Type} (d : List (String × α)) (k k' : String) (v : α)
    (h : k' ≠ k) : lookupKey (setKey d k v) k' = lookupKey d k' := by
  have hkk : ¬k = k' := fun hh => h hh.symm
  induction d with
  | nil => simp [setKey, lookupKey, hkk]
  | cons hd tl ih =>
    obtain ⟨k0, v0⟩ := hd
    by_cases hk : k0 = k
    · subst hk
      simp [setKey, lookupKey, hkk]
    · simp only [setKey, if_neg hk, lookupKey, ih]

theorem listOf_setKey_self (db : RedisDB) (k : String) (l : List JsonVal) :
    listOf (setKey db k l) k = l := by
  simp [listOf, lookupKey_setKey_self]

theorem listOf_setKey_other (db : RedisDB) (k k' : String) (l : List JsonVal)
    (h : k' ≠ k) : listOf (setKey db k l) k' = listOf db k' := by
  simp [listOf, lookupKey_setKey_other db k k' l h]

theorem decode_encode (j : Job) : decodeJob (encodeJob j) = .ok j := rfl

/-- A sequence of enqueue calls, one per job, oldest first. -/
def enqueueAll (q : RedisJobQueue) (db : RedisDB) (js : List Job) : RedisDB :=
  js.foldl (fun d j => (q.enqueue d j).2) db

/-- A sequence of n dequeue calls, collecting each outcome in call order. -/
def dequeueN (q : RedisJobQueue) : Nat → RedisDB → List (Except PyErr (Option Job)) × RedisDB
  | 0, db => ([], db)
  | n + 1, db =>
    let (r, db') := q.dequeue db
    let (rs, db'') := dequeueN q n db'
    (r :: rs, db'')

theorem listOf_enqueue (q : RedisJobQueue) (db : RedisDB) (j : Job) :
    listOf (q.enqueue db j).2 q.qname = listOf db q.qname ++ [encodeJob j] := by
  simp [RedisJobQueue.enqueue, rpush, listOf_setKey_self]

theorem listOf_enqueue_other (q : RedisJobQueue) (db : RedisDB) (j : Job) (n : String)
    (h : n ≠ q.qname) : listOf (q.enqueue db j).2 n = listOf db n := by
  simp [RedisJobQueue.enqueue, rpush, listOf_setKey_other _ _ _ _ h]

theorem listOf_enqueueAll (q : RedisJobQueue) (js : List Job) :
    ∀ db : RedisDB,
      listOf (enqueueAll q db js) q.qname = listOf db q.qname ++ js.map encodeJob := by
  induction js with
  | nil => intro db; simp [enqueueAll]
  | cons j js ih =>
    intro db
    have step : enqueueAll q db (j :: js) = enqueueAll q (q.enqueue db j).2 js := rfl
    rw [step, ih, listOf_enqueue]
    simp

/-- Dequeue on a store whose queue list is empty: the empty signal, no
error, store unchanged. -/
theorem dequeue_empty (q : RedisJobQueue) (db : RedisDB)
    (h : listOf db q.qname = []) : q.dequeue db = (.ok none, db) := by
  unfold RedisJobQueue.dequeue lpop
  rw [h]

/-- Dequeue on a store whose queue list starts with a record that decodes:
the decoded job comes back and the head record is consumed. -/
theorem dequeue_cons_ok (q : RedisJobQueue) (db : RedisDB) (rec : JsonVal)
    (rest : List JsonVal) (j : Job) (h : listOf db q.qname = rec :: rest)
    (hd : decodeJob rec = .ok j) :
    q.dequeue db = (.ok (some j), setKey db q.qname rest) := by
  unfold RedisJobQueue.dequeue lpop
  rw [h]
  simp [hd]

/-- Dequeue on a store whose queue list starts with a record that fails to
decode: the error propagates and the head record has still been consumed. -/
theorem dequeue_cons_error (q : RedisJobQueue) (db : RedisDB) (rec : JsonVal)
    (rest : List JsonVal) (e : PyErr) (h : listOf db q.qname = rec :: rest)
    (hd : decodeJob rec = .error e) :
    q.dequeue db = (.error e, setKey db q.qname rest) := by
  unfold RedisJobQueue.dequeue lpop
  rw [h]
  simp [hd]

theorem notifyStep_eq (s : ServerState) (evs : List Event) :
    notifyStep s evs =
      (.ok (), s, evs ++ if s.request_context.truthy then [Event.notify] else []) := by
  unfold notifyStep
  by_cases h : s.request_context.truthy <;> simp [h]

/-- Behaviour of process_job on an add-note job with string name and
content present, spelled out for each state of the redis_conn attribute
slot. -/
theorem processJob_add_note (job : Job) (s : ServerState) (w c : String)
    (htype : job.type = "add-note")
    (hname : lookupKey job.data "name" = some (.str w))
    (hcontent : lookupKey job.data "content" = some (.str c)) :
    processJob job s =
      match s.redis_conn with
      | .unset =>
        (.error (.attributeError "redis_conn"),
         { s with notes := setKey s.notes w c }, [Event.setNote w c])
      | .val none =>
        (.ok (), { s with notes := setKey s.notes w c },
         [Event.setNote w c] ++
           if s.request_context.truthy then [Event.notify] else [])
      | .val (some m) =>
        (.ok (),
         { s with notes := setKey s.notes w c,
                  redis_conn := .val (some (m.hset "notes" w c)) },
         [Event.setNote w c, Event.hset "notes" w c] ++
           if s.request_context.truthy then [Event.notify] else []) := by
  unfold processJob
  rw [htype, hname, hcontent]
  cases hconn : s.redis_conn with
  | unset => simp [asStr, hconn]
  | val o =>
    cases o with
    | none => simp [asStr, hconn, notifyStep_eq]
    | some m => simp [asStr, hconn, notifyStep_eq]

/-- Behaviour of process_job when a required data key is missing: the
subscript raises KeyError before any mutation. -/
theorem processJob_missing_key (job : Job) (s : ServerState)
    (htype : job.type = "add-note")
    (hmiss : lookupKey job.data "name" = none ∨
             lookupKey job.data "content" = none) :
    ∃ k, k ∈ ["name", "content"] ∧
      processJob job s = (.error (.keyError k), s, []) := by
  unfold processJob
  rw [htype]
  cases hn : lookupKey job.data "name" with
  | none => exact ⟨"name", by simp, by simp⟩
  | some nv =>
    cases hc : lookupKey job.data "content" with
    | none => exact ⟨"content", by simp, by simp⟩
    | some cv =>
      rcases hmiss with h | h
      · exact absurd hn (h ▸ fun hh => Option.noConfusion hh)
      · rw [hc] at h; exact Option.noConfusion h

/-- Behaviour of process_job on any job whose type is not add-note: the
single if statement of the function does not fire, a no-op. -/
theorem processJob_other_type (job : Job) (s : ServerState)
    (htype : job.type ≠ "add-note") :
    processJob job s = (.ok (), s, []) := by
  unfold processJob
  rw [if_neg htype]

theorem workerStep_empty (w : WorldState) (h : listOf w.db "jobs" = []) :
    workerStep w = (.slept, ⟨w.db, w.srv⟩, []) := by
  unfold workerStep
  rw [dequeue_empty workerQueue w.db h]

theorem workerStep_decode_error (w : WorldState) (rec : JsonVal)
    (rest : List JsonVal) (e : PyErr) (h : listOf w.db "jobs" = rec :: rest)
    (hd : decodeJob rec = .error e) :
    workerStep w = (.crashed e, ⟨setKey w.db "jobs" rest, w.srv⟩, []) := by
  unfold workerStep
  rw [dequeue_cons_error workerQueue w.db rec rest e h hd]
  rfl

theorem workerStep_process_ok (w : WorldState) (rec : JsonVal)
    (rest : List JsonVal) (j : Job) (srv' : ServerState) (evs : List Event)
    (h : listOf w.db "jobs" = rec :: rest) (hd : decodeJob rec = .ok j)
    (hp : processJob j w.srv = (.ok (), srv', evs)) :
    workerStep w = (.processed j, ⟨setKey w.db "jobs" rest, srv'⟩, evs) := by
  unfold workerStep
  rw [dequeue_cons_ok workerQueue w.db rec rest j h hd]
  dsimp only
  rw [hp]
  rfl

theorem workerStep_process_error (w : WorldState) (rec : JsonVal)
    (rest : List JsonVal) (j : Job) (e : PyErr) (srv' : ServerState)
    (evs : List Event)
    (h : listOf w.db "jobs" = rec :: rest) (hd : decodeJob rec = .ok j)
    (hp : processJob j w.srv = (.error e, srv', evs)) :
    workerStep w = (.crashed e, ⟨setKey w.db "jobs" rest, srv'⟩, evs) := by
  unfold workerStep
  rw [dequeue_cons_ok workerQueue w.db rec rest j h hd]
  dsimp only
  rw [hp]
  rfl

theorem Mirror.field_hset_self (m : Mirror) (h f v : String) :
    (m.hset h f v).field h f = some v := by
  unfold Mirror.hset Mirror.field
  rw [lookupKey_setKey_self]
  simp [lookupKey_setKey_self]

theorem workerStep_db_other (w : WorldState) (n : String) (hn : n ≠ "jobs") :
    listOf ((workerStep w).2.1).db n = listOf w.db n := by
  cases hl : listOf w.db "jobs" with
  | nil => rw [workerStep_empty w hl]
  | cons rec rest =>
    cases hd : decodeJob rec with
    | error e =>
      rw [workerStep_decode_error w rec rest e hl hd]
      exact listOf_setKey_other w.db "jobs" n rest hn
    | ok j =>
      rcases hp : processJob j w.srv with ⟨r, srv', evs⟩
      cases r with
      | ok u =>
        rw [workerStep_process_ok w rec rest j srv' evs hl hd (by rw [hp])]
        exact listOf_setKey_other w.db "jobs" n rest hn
      | error e =>
        rw [workerStep_process_error w rec rest j e srv' evs hl hd hp]
        exact listOf_setKey_other w.db "jobs" n rest hn

theorem workerRun_db_other (k : Nat) :
    ∀ (w : WorldState) (n : String), n ≠ "jobs" →
      listOf ((workerRun k w).2).db n = listOf w.db n := by
  induction k with
  | zero => intro w n _; rfl
  | succ k ih =>
    intro w n hn
    show listOf ((workerRun (k + 1) w).2).db n = listOf w.db n
    rw [workerRun]
    rcases hs : workerStep w with ⟨r, w', evs⟩
    have hdb : listOf w'.db n = listOf w.db n := by
      have := workerStep_db_other w n hn
      rw [hs] at this
      exact this
    cases r with
    | crashed e => exact hdb
    | slept =>
      dsimp only
      rcases hrun : workerRun k w' with ⟨rs, w''⟩
      have := ih w' n hn
      rw [hrun] at this
      dsimp only
      rw [this, hdb]
    | processed j =>
      dsimp only
      rcases hrun : workerRun k w' with ⟨rs, w''⟩
      have := ih w' n hn
      rw [hrun] at this
      dsimp only
      rw [this, hdb]

theorem workerRun_processed_from_jobs (k : Nat) :
    ∀ (w : WorldState) (j : Job), StepResult.processed j ∈ (workerRun k w).1 →
      ∃ rec ∈ listOf w.db "jobs", decodeJob rec = .ok j := by
  induction k with
  | zero => intro w j h; simp [workerRun] at h
  | succ k ih =>
    intro w j h
    rw [workerRun] at h
    cases hl : listOf w.db "jobs" with
    | nil =>
      rw [workerStep_empty w hl] at h
      dsimp only at h
      rcases hrun : workerRun k ⟨w.db, w.srv⟩ with ⟨rs, w''⟩
      rw [hrun] at h
      dsimp only at h
      rcases List.mem_cons.mp h with h | h
      · cases h
      · obtain ⟨rec, hrec, hdec⟩ := ih ⟨w.db, w.srv⟩ j (by rw [hrun]; exact h)
        dsimp only at hrec
        rw [hl] at hrec
        exact (List.not_mem_nil rec hrec).elim
    | cons rec rest =>
      cases hd : decodeJob rec with
      | error e =>
        rw [workerStep_decode_error w rec rest e hl hd] at h
        dsimp only at h
        rcases List.mem_cons.mp h with h | h
        · cases h
        · cases h
      | ok j0 =>
        rcases hp : processJob j0 w.srv with ⟨r, srv', evs⟩
        cases r with
        | error e =>
          rw [workerStep_process_error w rec rest j0 e srv' evs hl hd hp] at h
          dsimp only at h
          rcases List.mem_cons.mp h with h | h
          · cases h
          · cases h
        | ok u =>
          rw [workerStep_process_ok w rec rest j0 srv' evs hl hd (by rw [hp])] at h
          dsimp only at h
          rcases hrun : workerRun k ⟨setKey w.db "jobs" rest, srv'⟩ with ⟨rs, w''⟩
          rw [hrun] at h
          dsimp only at h
          rcases List.mem_cons.mp h with h | h
          · refine ⟨rec, List.mem_cons_self rec rest, ?_⟩
            cases h
            exact hd
          · obtain ⟨r0, hr0, hdec0⟩ :=
              ih ⟨setKey w.db "jobs" rest, srv'⟩ j (by rw [hrun]; exact h)
            refine ⟨r0, ?_, hdec0⟩
            have hrest : listOf (setKey w.db "jobs" rest) "jobs" = rest :=
              listOf_setKey_self w.db "jobs" rest
            dsimp only at hr0
            rw [hrest] at hr0
            exact List.mem_cons_of_mem rec hr0

theorem dequeueN_encoded (q : RedisJobQueue) :
    ∀ (js : List Job) (db : RedisDB), listOf db q.qname = js.map encodeJob →
      (dequeueN q js.length db).1 = js.map (fun j => Except.ok (some j)) := by
  intro js
  induction js with
  | nil => intro db _; rfl
  | cons j js ih =>
    intro db h
    have hd : q.dequeue db = (.ok (some j), setKey db q.qname (js.map encodeJob)) :=
      dequeue_cons_ok q db (encodeJob j) (js.map encodeJob) j (by rw [h]; rfl)
        (decode_encode j)
    have hrest := ih (setKey db q.qname (js.map encodeJob))
      (listOf_setKey_self db q.qname (js.map encodeJob))
    show (dequeueN q (js.length + 1) db).1 = _
    rw [dequeueN, hd]
    dsimp only
    rcases hrun : dequeueN q js.length (setKey db q.qname (js.map encodeJob))
      with ⟨rs, db''⟩
    rw [hrun] at hrest
    dsimp only
    rw [List.map_cons]
    exact congrArg _ hrest

/-- Claim C3: starting from an empty queue, a sequence of N enqueue calls
with distinct Job payloads followed by N dequeue calls with no
interleaving returns the N Jobs in exactly the order they were enqueued:
FIFO, oldest pushed is oldest popped. -/
theorem fifo_enqueue_then_dequeue (q : RedisJobQueue) (db : RedisDB)
    (js : List Job) (hempty : listOf db q.qname = [])
    (hdistinct : js.Nodup) :
    (dequeueN q js.length (enqueueAll q db js)).1 =
      js.map (fun j => Except.ok (some j)) := by
  apply dequeueN_encoded
  rw [listOf_enqueueAll, hempty]
  rfl

/-- Witness for C3 at two distinct concrete jobs. -/
theorem fifo_enqueue_then_dequeue_witness :
    (dequeueN ({} : RedisJobQueue) 2
        (enqueueAll {} []
          [⟨"add-note", [("name", .str "a"), ("content", .str "1")]⟩,
           ⟨"add-note", [("name", .str "b"), ("content", .str "2")]⟩])).1 =
      [Except.ok (some ⟨"add-note", [("name", .str "a"), ("content", .str "1")]⟩),
       Except.ok (some ⟨"add-note", [("name", .str "b"), ("content", .str "2")]⟩)] :=
  fifo_enqueue_then_dequeue {} []
    [⟨"add-note", [("name", .str "a"), ("content", .str "1")]⟩,
     ⟨"add-note", [("name", .str "b"), ("content", .str "2")]⟩]
    rfl
    (by
      refine List.nodup_cons.mpr ⟨?_, List.nodup_singleton _⟩
      intro hmem
      have : ("add-note" : String) = "add-note" ∧
          [(("name" : String), JsonVal.str "a"), (("content" : String), JsonVal.str "1")] =
            [(("name" : String), JsonVal.str "b"), (("content" : String), JsonVal.str "2")] := by
        rcases List.mem_singleton.mp hmem with h
        exact ⟨congrArg Job.type h, congrArg Job.data h⟩
      have hlists := this.2
      have hpair := List.head_eq_of_cons_eq hlists
      have : JsonVal.str "a" = JsonVal.str "b" := congrArg Prod.snd hpair
      have : ("a" : String) = "b" := by injection this
      exact absurd this (by decide))

/-- Claim C4: decoding the result of encoding a Job yields a Job equal to
it in both type tag and data mapping, and an enqueue followed by a
dequeue through the durable queue reproduces an equal Job. -/
theorem encode_decode_roundtrip (j : Job) (q : RedisJobQueue) (db : RedisDB)
    (hempty : listOf db q.qname = []) :
    decodeJob (encodeJob j) = .ok j ∧
    (q.dequeue (q.enqueue db j).2).1 = .ok (some j) := by
  refine ⟨decode_encode j, ?_⟩
  have hl : listOf (q.enqueue db j).2 q.qname = encodeJob j :: [] := by
    rw [listOf_enqueue, hempty]
    rfl
  rw [dequeue_cons_ok q (q.enqueue db j).2 (encodeJob j) [] j hl (decode_encode j)]

/-- Witness for C4 at the concrete job of the repository unit test. -/
theorem encode_decode_roundtrip_witness :
    decodeJob (encodeJob ⟨"echo", [("message", .str "hi")]⟩) =
      .ok ⟨"echo", [("message", .str "hi")]⟩ ∧
    (RedisJobQueue.dequeue {}
        (RedisJobQueue.enqueue {} [] ⟨"echo", [("message", .str "hi")]⟩).2).1 =
      .ok (some ⟨"echo", [("message", .str "hi")]⟩) :=
  encode_decode_roundtrip ⟨"echo", [("message", .str "hi")]⟩ {} [] rfl

/-- Claim C6: dequeue on an empty queue returns the empty signal None
rather than blocking or raising, and the queue is still empty afterwards. -/
theorem dequeue_on_empty_queue (q : RedisJobQueue) (db : RedisDB)
    (hempty : listOf db q.qname = []) :
    q.dequeue db = (.ok none, db) ∧
    listOf (q.dequeue db).2 q.qname = [] := by
  have h := dequeue_empty q db hempty
  exact ⟨h, by rw [h]; exact hempty⟩

/-- Witness for C6 on a fresh store. -/
theorem dequeue_on_empty_queue_witness :
    RedisJobQueue.dequeue {} ([] : RedisDB) = (.ok none, ([] : RedisDB)) ∧
    listOf (RedisJobQueue.dequeue {} ([] : RedisDB)).2
        ({} : RedisJobQueue).qname = [] :=
  dequeue_on_empty_queue {} [] rfl

/-- Claim C5: a job whose type tag is not a recognized operation is a
no-op for every data payload: the notes store is unchanged, no exception
is raised, and a worker iteration that dequeues it reports a processed
outcome, not a crash, leaving the loop running. -/
theorem unknown_type_is_noop (j : Job) (s : ServerState) (w : WorldState)
    (rest : List JsonVal) (htype : j.type ≠ "add-note")
    (hhead : listOf w.db "jobs" = encodeJob j :: rest) :
    processJob j s = (.ok (), s, []) ∧
    workerStep w = (.processed j, ⟨setKey w.db "jobs" rest, w.srv⟩, []) := by
  refine ⟨processJob_other_type j s htype, ?_⟩
  exact workerStep_process_ok w (encodeJob j) rest j w.srv [] hhead
    (decode_encode j) (processJob_other_type j w.srv htype)

/-- Witness for C5 at the concrete unknown-type job of the repository
unit test. -/
theorem unknown_type_is_noop_witness :
    processJob ⟨"noop", []⟩ initialServerState = (.ok (), initialServerState, []) ∧
    workerStep ⟨[("jobs", [encodeJob ⟨"noop", []⟩])], initialServerState⟩ =
      (.processed ⟨"noop", []⟩,
       ⟨setKey [("jobs", [encodeJob ⟨"noop", []⟩])] "jobs" [], initialServerState⟩,
       []) :=
  unknown_type_is_noop ⟨"noop", []⟩ initialServerState
    ⟨[("jobs", [encodeJob ⟨"noop", []⟩])], initialServerState⟩ []
    (by decide) rfl

/-- Claim C1: after the worker pops and executes an add-note job whose
data maps "name" to a string w and "content" to a string c, the notes
mapping maps w to c, and if a durable mirror is configured the field w of
the mirror hash "notes" equals c. -/
theorem add_note_updates_store_and_mirror (w : WorldState) (job : Job)
    (nm c : String) (rest : List JsonVal)
    (htype : job.type = "add-note")
    (hname : lookupKey job.data "name" = some (.str nm))
    (hcontent : lookupKey job.data "content" = some (.str c))
    (hhead : listOf w.db "jobs" = encodeJob job :: rest) :
    lookupKey ((workerStep w).2.1).srv.notes nm = some c ∧
    (∀ m : Mirror, w.srv.redis_conn = .val (some m) →
      ∃ m' : Mirror, ((workerStep w).2.1).srv.redis_conn = .val (some m') ∧
        m'.field "notes" nm = some c) := by
  have hpj := processJob_add_note job w.srv nm c htype hname hcontent
  cases hconn : w.srv.redis_conn with
  | unset =>
    rw [hconn] at hpj
    dsimp only at hpj
    rw [workerStep_process_error w (encodeJob job) rest job
      (.attributeError "redis_conn") _ _ hhead (decode_encode job) hpj]
    dsimp only
    refine ⟨lookupKey_setKey_self _ _ _, ?_⟩
    intro m hm
    cases hm
  | val o =>
    cases o with
    | none =>
      rw [hconn] at hpj
      dsimp only at hpj
      rw [workerStep_process_ok w (encodeJob job) rest job _ _ hhead
        (decode_encode job) hpj]
      dsimp only
      refine ⟨lookupKey_setKey_self _ _ _, ?_⟩
      intro m hm
      injection hm with hm'
      cases hm'
    | some m0 =>
      rw [hconn] at hpj
      dsimp only at hpj
      rw [workerStep_process_ok w (encodeJob job) rest job _ _ hhead
        (decode_encode job) hpj]
      dsimp only
      exact ⟨lookupKey_setKey_self _ _ _,
        fun m _ => ⟨m0.hset "notes" nm c, rfl,
          Mirror.field_hset_self m0 "notes" nm c⟩⟩

/-- Witness for C1 with a configured mirror: the scenario of the
integration test, one job at the head of the "jobs" list. -/
theorem add_note_updates_store_and_mirror_witness :
    lookupKey ((workerStep
        ⟨[("jobs",
           [encodeJob ⟨"add-note",
             [("name", .str "persist"), ("content", .str "c1")]⟩])],
         ⟨[], .val (some ⟨[]⟩), .unset⟩⟩).2.1).srv.notes "persist" =
      some "c1" ∧
    (∀ m : Mirror,
      (⟨[], .val (some ⟨[]⟩), .unset⟩ : ServerState).redis_conn =
        .val (some m) →
      ∃ m' : Mirror,
        ((workerStep
          ⟨[("jobs",
             [encodeJob ⟨"add-note",
               [("name", .str "persist"), ("content", .str "c1")]⟩])],
           ⟨[], .val (some ⟨[]⟩), .unset⟩⟩).2.1).srv.redis_conn =
          .val (some m') ∧
        m'.field "notes" "persist" = some "c1") :=
  add_note_updates_store_and_mirror
    ⟨[("jobs",
       [encodeJob ⟨"add-note",
         [("name", .str "persist"), ("content", .str "c1")]⟩])],
     ⟨[], .val (some ⟨[]⟩), .unset⟩⟩
    ⟨"add-note", [("name", .str "persist"), ("content", .str "c1")]⟩
    "persist" "c1" [] rfl rfl rfl rfl

/-- Counterexample to claim C2: executing an add-note job whose data is
missing "content" is not a silent no-op. The store is unchanged, but the
subscript raises KeyError and the worker loop, which has no exception
handler, crashes instead of continuing with subsequent jobs. -/
theorem add_note_missing_key_counterexample :
    workerStep ⟨[("jobs", [encodeJob ⟨"add-note", [("name", .str "x")]⟩])],
        initialServerState⟩ =
      (.crashed (.keyError "content"),
       ⟨[("jobs", [])], initialServerState⟩, []) := rfl

/-- Amended claim C2: for every add-note job with a required key missing,
execution leaves the Shared State Store unchanged but raises a KeyError
for the missing key, and the worker loop terminates on that exception
instead of continuing with subsequent jobs. -/
theorem add_note_missing_key_crashes_loop (w : WorldState) (job : Job)
    (rest : List JsonVal) (htype : job.type = "add-note")
    (hmiss : lookupKey job.data "name" = none ∨
             lookupKey job.data "content" = none)
    (hhead : listOf w.db "jobs" = encodeJob job :: rest) :
    ∃ k, k ∈ ["name", "content"] ∧
      workerStep w =
        (.crashed (.keyError k), ⟨setKey w.db "jobs" rest, w.srv⟩, []) := by
  obtain ⟨k, hk, hpj⟩ := processJob_missing_key job w.srv htype hmiss
  exact ⟨k, hk, workerStep_process_error w (encodeJob job) rest job
    (.keyError k) w.srv [] hhead (decode_encode job) hpj⟩

/-- Witness for the amended C2 at a job missing its "name" key. -/
theorem add_note_missing_key_crashes_loop_witness :
    ∃ k, k ∈ ["name", "content"] ∧
      workerStep ⟨[("jobs", [encodeJob ⟨"add-note", [("content", .str "y")]⟩])],
          initialServerState⟩ =
        (.crashed (.keyError k),
         ⟨setKey [("jobs", [encodeJob ⟨"add-note", [("content", .str "y")]⟩])]
            "jobs" [],
          initialServerState⟩, []) :=
  add_note_missing_key_crashes_loop
    ⟨[("jobs", [encodeJob ⟨"add-note", [("content", .str "y")]⟩])],
     initialServerState⟩
    ⟨"add-note", [("content", .str "y")]⟩ [] rfl (Or.inl rfl) rfl

/-- Claim C7, evaluated at the failing input: executing an add-note job
with both keys present against the server module in its state at import
time, where no durable mirror was ever configured, mutates the in-memory
store and then raises AttributeError, because server.py never defines the
module attribute redis_conn that worker.py reads. The repository unit
test test_process_job_add_note runs exactly this state and asserts
success. -/
theorem add_note_no_mirror_attribute_error :
    processJob ⟨"add-note", [("name", .str "async"), ("content", .str "hello")]⟩
        initialServerState =
      (.error (.attributeError "redis_conn"),
       { notes := [("async", "hello")], redis_conn := .unset,
         request_context := .unset },
       [Event.setNote "async" "hello"]) := rfl

/-- Counterexample to claim C8: a popped record that does not parse as a
Job is consumed, but the failure is not logged and dropped; the exception
propagates and the worker loop terminates instead of continuing to poll. -/
theorem undecodable_record_counterexample :
    workerStep ⟨[("jobs", [JsonVal.str "garbage"])], initialServerState⟩ =
      (.crashed .typeError, ⟨[("jobs", [])], initialServerState⟩, []) := rfl

/-- Amended claim C8: when the record popped from the head of the queue
cannot be parsed back into a Job, the record is consumed and not
re-queued, but the decode failure propagates out of dequeue and the
worker loop terminates on it rather than continuing to poll. -/
theorem undecodable_record_consumed_then_crash (w : WorldState)
    (rec : JsonVal) (rest : List JsonVal) (e : PyErr)
    (hhead : listOf w.db "jobs" = rec :: rest)
    (hdec : decodeJob rec = .error e) :
    workerStep w = (.crashed e, ⟨setKey w.db "jobs" rest, w.srv⟩, []) ∧
    listOf ((workerStep w).2.1).db "jobs" = rest := by
  have h := workerStep_decode_error w rec rest e hhead hdec
  refine ⟨h, ?_⟩
  rw [h]
  exact listOf_setKey_self w.db "jobs" rest

/-- Witness for the amended C8 at a concrete non-mapping record. -/
theorem undecodable_record_consumed_then_crash_witness :
    workerStep ⟨[("jobs", [JsonVal.num 0])], initialServerState⟩ =
      (.crashed .typeError,
       ⟨setKey [("jobs", [JsonVal.num 0])] "jobs" [], initialServerState⟩,
       []) ∧
    listOf ((workerStep
        ⟨[("jobs", [JsonVal.num 0])], initialServerState⟩).2.1).db "jobs" =
      [] :=
  undecodable_record_consumed_then_crash
    ⟨[("jobs", [JsonVal.num 0])], initialServerState⟩
    (JsonVal.num 0) [] .typeError rfl rfl

/-- Counterexample to claim C9: in the server module in its state at the
time of import no notifier is attached, and executing an add-note job with
both keys present does not complete without error: it raises
AttributeError at the redis_conn read that precedes the notifier step. -/
theorem notifier_contract_counterexample :
    (processJob ⟨"add-note", [("name", .str "n2"), ("content", .str "c2")]⟩
        initialServerState).1 = .error (.attributeError "redis_conn") ∧
    initialServerState.request_context.truthy = false :=
  ⟨rfl, rfl⟩

/-- Amended claim C9: provided the redis_conn module attribute has been
initialized (to a connection or to None), executing an add-note job with
both required keys present invokes the notifier exactly once, after the
state mutation, when one is attached, and completes without error when
none is attached. -/
theorem add_note_notifier_invoked_once (job : Job) (s : ServerState)
    (nm c : String) (o : Option Mirror)
    (htype : job.type = "add-note")
    (hname : lookupKey job.data "name" = some (.str nm))
    (hcontent : lookupKey job.data "content" = some (.str c))
    (hconn : s.redis_conn = .val o) :
    (s.request_context.truthy = true →
      (processJob job s).1 = .ok () ∧
      ((processJob job s).2.2).count Event.notify = 1 ∧
      ((processJob job s).2.2).getLast? = some Event.notify ∧
      ((processJob job s).2.2).head? = some (Event.setNote nm c)) ∧
    (s.request_context.truthy = false →
      (processJob job s).1 = .ok () ∧
      ((processJob job s).2.2).count Event.notify = 0) := by
  have hpj := processJob_add_note job s nm c htype hname hcontent
  rw [hconn] at hpj
  cases o with
  | none =>
    dsimp only at hpj
    rw [hpj]
    constructor
    · intro ht
      rw [ht]
      refine ⟨rfl, ?_, ?_, rfl⟩
      · simp [List.count_cons]
      · simp
    · intro ht
      rw [ht]
      refine ⟨rfl, ?_⟩
      simp [List.count_cons]
  | some m0 =>
    dsimp only at hpj
    rw [hpj]
    constructor
    · intro ht
      rw [ht]
      refine ⟨rfl, ?_, ?_, rfl⟩
      · simp [List.count_cons]
      · simp
    · intro ht
      rw [ht]
      refine ⟨rfl, ?_⟩
      simp [List.count_cons]

/-- Witness for the amended C9 with a notifier attached and the mirror
attribute set to None. -/
theorem add_note_notifier_invoked_once_witness :
    ((⟨[], .val none, .val (some ())⟩ : ServerState).request_context.truthy = true →
      (processJob ⟨"add-note", [("name", .str "n3"), ("content", .str "c3")]⟩
          ⟨[], .val none, .val (some ())⟩).1 = .ok () ∧
      ((processJob ⟨"add-note", [("name", .str "n3"), ("content", .str "c3")]⟩
          ⟨[], .val none, .val (some ())⟩).2.2).count Event.notify = 1 ∧
      ((processJob ⟨"add-note", [("name", .str "n3"), ("content", .str "c3")]⟩
          ⟨[], .val none, .val (some ())⟩).2.2).getLast? = some Event.notify ∧
      ((processJob ⟨"add-note", [("name", .str "n3"), ("content", .str "c3")]⟩
          ⟨[], .val none, .val (some ())⟩).2.2).head? =
        some (Event.setNote "n3" "c3")) ∧
    ((⟨[], .val none, .val (some ())⟩ : ServerState).request_context.truthy = false →
      (processJob ⟨"add-note", [("name", .str "n3"), ("content", .str "c3")]⟩
          ⟨[], .val none, .val (some ())⟩).1 = .ok () ∧
      ((processJob ⟨"add-note", [("name", .str "n3"), ("content", .str "c3")]⟩
          ⟨[], .val none, .val (some ())⟩).2.2).count Event.notify = 0) :=
  add_note_notifier_invoked_once
    ⟨"add-note", [("name", .str "n3"), ("content", .str "c3")]⟩
    ⟨[], .val none, .val (some ())⟩ "n3" "c3" none rfl rfl rfl rfl

/-- Claim C10: the worker constructs its RedisJobQueue without passing a
queue name, so it consumes from the default queue "jobs"; a job enqueued
onto a queue constructed with any other name stays in that other list
untouched and is never dequeued or executed by the worker, over any
number of loop iterations. -/
theorem worker_consumes_only_default_queue (w : WorldState) (n : String)
    (j : Job) (k : Nat) (hn : n ≠ "jobs")
    (hnotin : ∀ rec ∈ listOf w.db "jobs", decodeJob rec ≠ .ok j) :
    workerQueue.qname = "jobs" ∧
    listOf ((workerRun k
        ⟨((RedisJobQueue.mk n).enqueue w.db j).2, w.srv⟩).2).db n =
      listOf w.db n ++ [encodeJob j] ∧
    StepResult.processed j ∉
      (workerRun k ⟨((RedisJobQueue.mk n).enqueue w.db j).2, w.srv⟩).1 := by
  refine ⟨rfl, ?_, ?_⟩
  · rw [workerRun_db_other k ⟨((RedisJobQueue.mk n).enqueue w.db j).2, w.srv⟩ n hn]
    exact listOf_enqueue (RedisJobQueue.mk n) w.db j
  · intro hmem
    obtain ⟨rec, hrec, hdec⟩ := workerRun_processed_from_jobs k
      ⟨((RedisJobQueue.mk n).enqueue w.db j).2, w.srv⟩ j hmem
    have hjobs : listOf ((RedisJobQueue.mk n).enqueue w.db j).2 "jobs" =
        listOf w.db "jobs" :=
      listOf_enqueue_other (RedisJobQueue.mk n) w.db j "jobs"
        (fun hh => hn hh.symm)
    dsimp only at hrec
    rw [hjobs] at hrec
    exact hnotin rec hrec hdec

/-- Witness for C10: a job pushed onto the queue named "other" while the
worker runs three iterations against an otherwise empty store. -/
theorem worker_consumes_only_default_queue_witness :
    workerQueue.qname = "jobs" ∧
    listOf ((workerRun 3
        ⟨((RedisJobQueue.mk "other").enqueue ([] : RedisDB)
            ⟨"add-note", [("name", .str "w"), ("content", .str "c")]⟩).2,
          initialServerState⟩).2).db "other" =
      listOf ([] : RedisDB) "other" ++
        [encodeJob ⟨"add-note", [("name", .str "w"), ("content", .str "c")]⟩] ∧
    StepResult.processed ⟨"add-note", [("name", .str "w"), ("content", .str "c")]⟩ ∉
      (workerRun 3
        ⟨((RedisJobQueue.mk "other").enqueue ([] : RedisDB)
            ⟨"add-note", [("name", .str "w"), ("content", .str "c")]⟩).2,
          initialServerState⟩).1 :=
  worker_consumes_only_default_queue ⟨[], initialServerState⟩ "other"
    ⟨"add-note", [("name", .str "w"), ("content", .str "c")]⟩ 3
    (by decide)
    (by intro rec hrec; simp [listOf, lookupKey] at hrec)
